import Mathlib

/-!
# Attendance system client script (`static/js/main.js`)

A shallow embedding of the `AttendanceSystem` class of `static/js/main.js`
and theorems about its event handlers.

Conventions of the embedding.

* A JavaScript string is a Lean `String`, a sequence of Unicode code points;
  its `length` is counted in UTF-16 code units, as the language does
  (`jsLength`).
* A method that talks to the browser is a function from what the browser
  hands back (the outcome of `fetch` and of `response.json()`, the value of a
  random draw, the identifiers in scope) to the list of calls it makes, in
  program order (`Action`), and to the exception that escapes it, if any.
* The DOM operations used by the script (`createElement`, `appendChild`,
  `remove`, `setTimeout`, `console.error`) are taken not to throw. The
  conversion of a value to a string, by `+` and by the setter of
  `textContent`, throws on a value that has no primitive value.
-/

namespace AttendanceSystem

/-! ## Strings -/

/-- Code points removed by `String.prototype.trim` (and skipped by `parseInt`):
the ECMAScript `WhiteSpace` and `LineTerminator` productions. -/
def isWhiteSpace (c : Char) : Bool :=
  let n := c.toNat
  n == 0x09 || n == 0x0A || n == 0x0B || n == 0x0C || n == 0x0D || n == 0x20 ||
  n == 0xA0 || n == 0x1680 || (0x2000 ≤ n && n ≤ 0x200A) || n == 0x2028 ||
  n == 0x2029 || n == 0x202F || n == 0x205F || n == 0x3000 || n == 0xFEFF

/-- Number of UTF-16 code units of one code point. -/
def utf16Units (c : Char) : Nat :=
  if c.toNat < 0x10000 then 1 else 2

/-- The `length` property of a string: its number of UTF-16 code units. -/
def jsLength (s : String) : Nat :=
  (s.data.map utf16Units).sum

/-- The method `String.prototype.trim`: white space removed at both ends. -/
def jsTrim (s : String) : String :=
  ⟨(s.data.dropWhile isWhiteSpace).rdropWhile isWhiteSpace⟩

/-- Does `needle` occur in `hay` as a contiguous run starting at some position? -/
def occursIn (needle : List Char) : List Char → Bool
  | [] => needle.isEmpty
  | c :: cs => needle.isPrefixOf (c :: cs) || occursIn needle cs

/-- The method `String.prototype.includes` with the default position. -/
def jsIncludes (s needle : String) : Bool :=
  occursIn needle.data s.data

/-! ## Values decoded from a response -/

/-- Value produced by `response.json()`, or read off such a value. A decoded
number is kept as an exact rational (`-0` is identified with `0`); a decoded
object is the list of its own properties, each key once. -/
inductive JSValue where
  | undefined
  | null
  | bool (b : Bool)
  | number (x : ℚ)
  | string (s : String)
  | array (items : List JSValue)
  | object (fields : List (String × JSValue))

/-- Exceptions raised by the language itself in the modelled code. -/
inductive JSError where
  | typeError
  | referenceError
  | rejection
  deriving DecidableEq, Repr

/-- The abstract operation `ToBoolean`. -/
def truthy : JSValue → Bool
  | .undefined => false
  | .null => false
  | .bool b => b
  | .number x => x != 0
  | .string s => s != ""
  | .array _ => true
  | .object _ => true

/-- Property read `v.key` for the keys the script reads (`success`, `message`,
`error`, `redirect`, `valid`): it throws a `TypeError` on `null` and
`undefined`, yields the own property of a decoded object, and `undefined` on
every other value (no prototype defines one of these keys). -/
def getProp (v : JSValue) (key : String) : Except JSError JSValue :=
  match v with
  | .undefined => .error .typeError
  | .null => .error .typeError
  | .object fields =>
    match fields.find? (fun kv => kv.1 == key) with
    | some kv => .ok kv.2
    | none => .ok .undefined
  | _ => .ok .undefined

mutual
/-- The conversion of a decoded value to a string, as applied by `'❌ ' + v`
and by the setter of `textContent`; `num` is the conversion of a Number. No
property of a decoded value is a function: an object with an own property
`toString` has no primitive value and the conversion throws a `TypeError`,
every other object gives `[object Object]`, and an array gives the strings of
its items joined by commas. -/
def toJSString (num : ℚ → String) : JSValue → Except JSError String
  | .undefined => .ok "undefined"
  | .null => .ok "null"
  | .bool true => .ok "true"
  | .bool false => .ok "false"
  | .number x => .ok (num x)
  | .string s => .ok s
  | .array items =>
    match itemStrings num items with
    | .ok parts => .ok (String.intercalate "," parts)
    | .error e => .error e
  | .object fields =>
    if fields.any (fun kv => kv.1 == "toString") then .error .typeError
    else .ok "[object Object]"
/-- The strings of the items of an array, as `Array.prototype.join` takes
them: the empty string for `null` and `undefined`, the conversion of the item
otherwise. -/
def itemStrings (num : ℚ → String) : List JSValue → Except JSError (List String)
  | [] => .ok []
  | .undefined :: rest =>
    match itemStrings num rest with
    | .ok parts => .ok ("" :: parts)
    | .error e => .error e
  | .null :: rest =>
    match itemStrings num rest with
    | .ok parts => .ok ("" :: parts)
    | .error e => .error e
  | x :: rest =>
    match toJSString num x with
    | .error e => .error e
    | .ok part =>
      match itemStrings num rest with
      | .ok parts => .ok (part :: parts)
      | .error e => .error e
end

/-- The string the setter of `textContent` stores for a value (line 170): the
empty string for `null` and `undefined`, the conversion of the value
otherwise. -/
def textContentOf (num : ℚ → String) : JSValue → Except JSError String
  | .undefined => .ok ""
  | .null => .ok ""
  | v => toJSString num v

/-- Escape of one code point by `JSON.stringify` (`QuoteJSONString`). -/
def jsonEscape (c : Char) : List Char :=
  let bs := Char.ofNat 0x5C
  let hex (d : Nat) : Char := if d < 10 then Char.ofNat (0x30 + d) else Char.ofNat (0x57 + d)
  if c.toNat == 0x08 then [bs, 'b']
  else if c.toNat == 0x09 then [bs, 't']
  else if c.toNat == 0x0A then [bs, 'n']
  else if c.toNat == 0x0C then [bs, 'f']
  else if c.toNat == 0x0D then [bs, 'r']
  else if c.toNat == 0x22 then [bs, Char.ofNat 0x22]
  else if c.toNat == 0x5C then [bs, bs]
  else if c.toNat < 0x20 then [bs, 'u', '0', '0', hex (c.toNat / 16), hex (c.toNat % 16)]
  else [c]

/-- The string literal that `JSON.stringify` writes for a string. -/
def jsonQuote (s : String) : String :=
  ⟨Char.ofNat 0x22 :: (s.data.flatMap jsonEscape ++ [Char.ofNat 0x22])⟩

/-- The text `JSON.stringify({ qr_data: qrData })`. -/
def stringifyQrData (qrData : String) : String :=
  "\x7b\"qr_data\":" ++ jsonQuote qrData ++ "\x7d"

/-! ## Calls made by the methods -/

/-- Body handed to `fetch`. -/
inductive Body where
  | absent
  | formData (entries : List (String × String))
  | text (s : String)
  deriving DecidableEq

/-- Arguments of one `fetch` call: the resource (`none` for `null`) and the
`method`, `headers` and `body` options, defaults written out. -/
structure Request where
  url : Option String
  method : String
  headers : List (String × String)
  body : Body
  deriving DecidableEq

/-- Calls to the browser and to sibling methods, as they appear in the code.
`showNotification` is a call that completes, `showNotificationThrows` one that
throws at line 170: it has removed the notifications present and attached
none. -/
inductive Action where
  | fetch (req : Request)
  | showNotification (message : JSValue) (type : String)
  | showNotificationThrows (message : JSValue) (type : String)
  | scheduleNavigation (href : JSValue) (delay : Nat)
  | setQrInputValue (value : String)
  | focusQrInput
  | animateSuccess
  | consoleError (label : String)
  | submitAttendance (qrData : String)

/-- Computation that records the calls it makes and may end in an exception. -/
structure Eff (α : Type) where
  trace : List Action
  result : Except JSError α

/-- Sequencing: the calls of the first part, then, unless it threw, those of
the second. -/
def Eff.andThen {α β : Type} (m : Eff α) (f : α → Eff β) : Eff β :=
  match m.result with
  | .error e => ⟨m.trace, .error e⟩
  | .ok a => ⟨m.trace ++ (f a).trace, (f a).result⟩

instance : Monad Eff where
  pure a := ⟨[], .ok a⟩
  bind := Eff.andThen

/-- One recorded call. -/
def perform (a : Action) : Eff Unit :=
  ⟨[a], .ok ()⟩

/-- Evaluation that may throw and makes no call. -/
def evaluate {α : Type} (x : Except JSError α) : Eff α :=
  ⟨[], x⟩

/-- Statement `try { body } catch (error) { handler }`. -/
def tryCatch (body : Eff Unit) (handler : JSError → Eff Unit) : Eff Unit :=
  match body.result with
  | .ok _ => body
  | .error e => ⟨body.trace ++ (handler e).trace, (handler e).result⟩

/-- State in which the promise returned by an `async` method settles. -/
inductive PromiseState where
  | fulfilled
  | rejected (e : JSError)
  deriving DecidableEq, Repr

/-- Promise of an `async` method whose body is `m`. -/
def Eff.promise (m : Eff Unit) : PromiseState :=
  match m.result with
  | .ok _ => .fulfilled
  | .error e => .rejected e

/-- What the network does with one request: `fetch` rejects, or it resolves to
a response whose `json()` rejects (`none`) or resolves to a decoded value. -/
inductive FetchResult where
  | rejected
  | response (json : Option JSValue)

/-- Expression `await fetch(...)`: the call is made, then its outcome awaited. -/
def awaitFetch (req : Request) (net : FetchResult) : Eff (Option JSValue) :=
  ⟨[Action.fetch req], match net with
    | .rejected => .error .rejection
    | .response json => .ok json⟩

/-- Expression `await response.json()`. -/
def awaitJson (json : Option JSValue) : Eff JSValue :=
  evaluate (match json with
    | none => .error .rejection
    | some v => .ok v)

/-! ## Form submission -/

/-- Submit button of a form: the two properties the handler writes. -/
structure Button where
  textContent : String
  disabled : Bool
  deriving DecidableEq, Repr

/-- Form as the handlers see it: its `action` and `method` attributes
(`none` when `getAttribute` returns `null`), the entries of its `FormData`
and its `button[type="submit"]`, if it has one. -/
structure Form where
  action : Option String
  method : Option String
  entries : List (String × String)
  submitBtn : Option Button

/-- Expression `form.getAttribute('method') || 'POST'`. -/
def requestMethod (form : Form) : String :=
  match form.method with
  | some m => if m != "" then m else "POST"
  | none => "POST"

/-- A call `this.showNotification(message, type)` on a value read off the
response: it completes when the value can be stored as `textContent`, and
throws otherwise. -/
def showNotificationCall (num : ℚ → String) (message : JSValue) (type : String) : Eff Unit :=
  match textContentOf num message with
  | .ok _ => perform (.showNotification message type)
  | .error e => ⟨[.showNotificationThrows message type], .error e⟩

/-- Method `submitForm(form)`. -/
def submitForm (num : ℚ → String) (form : Form) (net : FetchResult) : Eff Unit :=
  let formData := Body.formData form.entries
  let action := form.action
  let method := requestMethod form
  tryCatch
    (do
      let response ← awaitFetch
        { url := action, method := method,
          headers := [("X-Requested-With", "XMLHttpRequest")], body := formData } net
      let result ← awaitJson response
      let success ← evaluate (getProp result "success")
      if truthy success then
        let message ← evaluate (getProp result "message")
        showNotificationCall num message "success"
        let redirect ← evaluate (getProp result "redirect")
        if truthy redirect then
          perform (.scheduleNavigation redirect 1500)
      else
        let error ← evaluate (getProp result "error")
        showNotificationCall num error "error")
    (fun _ => do
      perform (.showNotification (.string "Network error. Please try again.") "error")
      perform (.consoleError "Form submission error:"))

/-- The loading state of `handleFormSubmit`: the button as it is while the
submission is pending (lines 38 to 42). -/
def loadingState (submitBtn : Option Button) : Option Button :=
  match submitBtn with
  | some _ => some { textContent := "Processing...", disabled := true }
  | none => none

/-- The `finally` callback of `handleFormSubmit` (lines 45 to 50), run on the
button in its loading state. The `const originalText` of line 39 is declared
inside the block of the first `if`, so the identifier `originalText` of line
47 is resolved in the scopes around `handleFormSubmit`: `outerOriginalText`
is its value there, `none` when no such variable exists (the read then throws
a `ReferenceError` and the rest of the callback is skipped). -/
def finallyCallback (outerOriginalText : Option String) (submitBtn : Option Button) :
    Option Button × Option JSError :=
  match submitBtn with
  | none => (none, none)
  | some b =>
    match outerOriginalText with
    | none => (some b, some .referenceError)
    | some originalText => (some { textContent := originalText, disabled := false }, none)

/-- Method `handleFormSubmit(event)` for the form `event.target`: the button
while the submission is pending, and the button once `submitForm` has settled. -/
def handleFormSubmit (outerOriginalText : Option String) (form : Form) :
    Option Button × Option Button :=
  let pending := loadingState form.submitBtn
  (pending, (finallyCallback outerOriginalText pending).1)

/-! ## QR scanner -/

/-- What a `function` callback finds as `this`: the `AttendanceSystem`
instance, or anything else (the input element, `undefined`), which has no
method `submitAttendance`. -/
inductive Receiver where
  | system
  | other
  deriving DecidableEq, Repr

/-- Modelled from the spec: the receiver with which the handler returned by
`debounce` runs its callback. The body of `debounce` lies past the end of the
source at hand; the spec describes the input as debounced and auto-submitted,
so the callback is run with the `AttendanceSystem` instance as `this`. -/
def debounceReceiver : Receiver := .system

/-- The callback handed to `debounce` in `setupQRScanner` (lines 101 to 106),
run with receiver `self` on the value of the input field. The call
`this.submitAttendance(value)` reaches the method when `this` is the system
and throws a `TypeError` otherwise. -/
def qrInputCallback (self : Receiver) (targetValue : String) : Eff Unit :=
  let value := jsTrim targetValue
  if jsLength value > 10 && jsIncludes value "ATTEND:" then
    match self with
    | .system => perform (.submitAttendance value)
    | .other => evaluate (.error .typeError)
  else
    pure ()

/-- Method `submitAttendance(qrData)`; `hasQrInput` tells whether
`document.getElementById('qrInput')` finds an element. -/
def submitAttendance (num : ℚ → String) (hasQrInput : Bool) (qrData : String)
    (net : FetchResult) : Eff Unit :=
  tryCatch
    (do
      let response ← awaitFetch
        { url := some "/mark_attendance", method := "POST",
          headers := [("Content-Type", "application/json")],
          body := .text (stringifyQrData qrData) } net
      let result ← awaitJson response
      let success ← evaluate (getProp result "success")
      if truthy success then
        perform (.showNotification (.string "✅ Attendance marked successfully!") "success")
        if hasQrInput then
          perform (.setQrInputValue "")
          perform .focusQrInput
        perform .animateSuccess
      else
        let error ← evaluate (getProp result "error")
        let text ← evaluate (toJSString num error)
        perform (.showNotification (.string ("❌ " ++ text)) "error"))
    (fun _ =>
      perform (.showNotification (.string "❌ Network error. Please try again.") "error"))

/-- Value of the QR input field after the calls of a trace. -/
def qrInputValueAfter (value : String) : List Action → String
  | [] => value
  | .setQrInputValue v :: rest => qrInputValueAfter v rest
  | _ :: rest => qrInputValueAfter value rest

/-! ## Session check -/

/-- One run of the interval callback of `checkSession` (lines 191 to 205). -/
def checkSession (net : FetchResult) : Eff Unit :=
  tryCatch
    (do
      let response ← awaitFetch
        { url := some "/check_session", method := "GET", headers := [], body := .absent } net
      let result ← awaitJson response
      let valid ← evaluate (getProp result "valid")
      if !truthy valid then
        perform (.showNotification (.string "Session expired. Please login again.") "warning")
        perform (.scheduleNavigation (.string "/") 2000))
    (fun _ => perform (.consoleError "Session check failed:"))

/-! ## Notifications -/

/-- One `.system-notification` element attached to the document. `id` tells
the elements apart: it is the number of the `showNotification` call that
created the element. -/
structure Notification where
  id : Nat
  className : String
  textContent : String
  animation : String
  deriving DecidableEq, Repr

/-- Pending timer set by `showNotification`: the outer callback of the call
numbered `id` (after 5000 ms), or the inner one it sets (after 300 ms). -/
inductive Timer where
  | fadeOut (id : Nat)
  | removal (id : Nat)
  deriving DecidableEq, Repr

/-- The call that set a timer. -/
def Timer.owner : Timer → Nat
  | .fadeOut id => id
  | .removal id => id

/-- The part of the page `showNotification` works on: the elements matching
`.system-notification` in document order, the pending timers, and how many
calls were made so far. -/
structure Page where
  notifications : List Notification
  timers : List Timer
  calls : Nat
  deriving DecidableEq, Repr

/-- Document without a notification, before any call. -/
def Page.initial : Page :=
  { notifications := [], timers := [], calls := 0 }

/-- Method `Element.remove` on the element numbered `id`: nothing happens when
the element is not attached. -/
def removeElement (id : Nat) (elements : List Notification) : List Notification :=
  elements.filter (fun n => n.id != id)

/-- Method `showNotification(message, type = 'info')`; `type` is `none` when
the argument is left out. -/
def showNotification (message : String) (type : Option String) (page : Page) : Page :=
  let type := type.getD "info"
  let existingNotifications := page.notifications
  let remaining := existingNotifications.foldl (fun doc notif => removeElement notif.id doc)
    page.notifications
  let notification : Notification :=
    { id := page.calls
      className := "system-notification alert alert-" ++ type
      textContent := message
      animation := "slideInRight 0.3s ease-out" }
  { notifications := remaining ++ [notification]
    timers := page.timers ++ [.fadeOut page.calls]
    calls := page.calls + 1 }

/-- Run of the callback of one timer (lines 183 to 186). The outer callback
restyles its own element and sets the inner timer; the inner callback removes
its own element. -/
def fireCallback (t : Timer) (page : Page) : Page :=
  match t with
  | .fadeOut id =>
    { page with
      notifications := page.notifications.map (fun n =>
        if n.id == id then { n with animation := "slideOutRight 0.3s ease-in" } else n)
      timers := page.timers ++ [.removal id] }
  | .removal id =>
    { page with notifications := removeElement id page.notifications }

/-- What happens to the page: a call of `showNotification`, or the firing of
the pending timer at position `k` (nothing when there is none). -/
inductive PageEvent where
  | call (message : String) (type : Option String)
  | fire (k : Nat)
  deriving DecidableEq, Repr

/-- One event applied to the page. -/
def Page.step (page : Page) : PageEvent → Page
  | .call message type => showNotification message type page
  | .fire k =>
    match page.timers.get? k with
    | none => page
    | some t => fireCallback t { page with timers := page.timers.eraseIdx k }

/-- The page after a sequence of events, from the initial document. -/
def Page.run (events : List PageEvent) : Page :=
  events.foldl Page.step Page.initial

/-- Arguments of the most recent `showNotification` call of a sequence. -/
def lastCall : List PageEvent → Option (String × Option String)
  | [] => none
  | .call message type :: rest =>
    match lastCall rest with
    | some later => some later
    | none => some (message, type)
  | .fire _ :: rest => lastCall rest

/-- Number of `showNotification` calls of a sequence. -/
def callCount : List PageEvent → Nat
  | [] => 0
  | .call _ _ :: rest => callCount rest + 1
  | .fire _ :: rest => callCount rest

/-! ## Numbers

A finite Number (an IEEE 754 double) is a whole multiple of `2 ^ (-1074)`: it
is kept as that whole number of units. An arithmetic operation computes the
exact result and rounds it to the nearest Number, ties to the even
significand. `-0` is identified with `0`. -/

/-- Units of `2 ^ (-1074)` in the number one. -/
def oneUnits : Nat := 2 ^ 1074

/-- Rounding of a magnitude, in units, to 53 significant bits: to the nearest,
ties to even. -/
def roundMagnitude (a : Nat) : Nat :=
  if a < 2 ^ 53 then a
  else
    let e := Nat.log2 a - 52
    let q := a / 2 ^ e
    let rem := a % 2 ^ e
    let half := 2 ^ (e - 1)
    if rem < half then q * 2 ^ e
    else if rem = half then (if q % 2 = 0 then q * 2 ^ e else (q + 1) * 2 ^ e)
    else (q + 1) * 2 ^ e

/-- Number value. -/
inductive Num where
  | nan
  | negInf
  | finite (units : Int)
  | posInf
  deriving DecidableEq, Repr

/-- The Number nearest to an exact value given in units; magnitudes from
`2 ^ 1024` on overflow to an infinity. -/
def roundUnits (x : Int) : Num :=
  let m := roundMagnitude x.natAbs
  if m < 2 ^ 2098 then .finite (if x < 0 then -(m : Int) else m)
  else if x < 0 then .negInf
  else .posInf

/-- The Number of a whole number. -/
def Num.ofInt (n : Int) : Num :=
  roundUnits (n * oneUnits)

/-- Operator `+` on Numbers. -/
def Num.add : Num → Num → Num
  | .nan, _ => .nan
  | _, .nan => .nan
  | .posInf, .negInf => .nan
  | .negInf, .posInf => .nan
  | .posInf, _ => .posInf
  | _, .posInf => .posInf
  | .negInf, _ => .negInf
  | _, .negInf => .negInf
  | .finite a, .finite b => roundUnits (a + b)

/-- Expression `x * 2`. -/
def Num.timesTwo : Num → Num
  | .finite a => roundUnits (2 * a)
  | x => x

/-- Expression `x - 1`. -/
def Num.minusOne (x : Num) : Num :=
  x.add (.finite (-(oneUnits : Int)))

/-- Expression `Math.max(0, x)`. -/
def mathMaxZero : Num → Num
  | .nan => .nan
  | .negInf => .finite 0
  | .finite a => .finite (max 0 a)
  | .posInf => .posInf

/-- Function `Math.round`: the nearest whole number, halves towards `+∞`. -/
def mathRound : Num → Num
  | .finite a => .finite (Int.fdiv (2 * a + oneUnits) (2 * oneUnits) * oneUnits)
  | x => x

/-- Function `isNaN` on a Number. -/
def isNaN : Num → Bool
  | .nan => true
  | _ => false

/-- Value of a digit, letters counting from ten. -/
def digitValue (c : Char) : Option Nat :=
  let n := c.toNat
  if 0x30 ≤ n && n ≤ 0x39 then some (n - 0x30)
  else if 0x61 ≤ n && n ≤ 0x7A then some (n - 0x61 + 10)
  else if 0x41 ≤ n && n ≤ 0x5A then some (n - 0x41 + 10)
  else none

/-- Is the character a digit of the radix? -/
def isRadixDigit (radix : Nat) (c : Char) : Bool :=
  match digitValue c with
  | some d => d < radix
  | none => false

/-- Whole number written by digits of the radix. -/
def digitsValue (radix : Nat) (digits : List Char) : Nat :=
  digits.foldl (fun acc c => acc * radix + (digitValue c).getD 0) 0

/-- The whole number `parseInt(text)` reads, `none` when the result is `NaN`:
leading white space is skipped, then a sign, then a `0x` or `0X` prefix
(radix sixteen), then the longest run of digits is read. -/
def parseIntValue (text : String) : Option Int :=
  let s := text.data.dropWhile isWhiteSpace
  let negative := s.head? == some '-'
  let s := if s.head? == some '-' || s.head? == some '+' then s.tail else s
  let hex := s.take 2 == ['0', 'x'] || s.take 2 == ['0', 'X']
  let radix := if hex then 16 else 10
  let s := if hex then s.drop 2 else s
  let z := s.takeWhile (isRadixDigit radix)
  if z.isEmpty then none
  else if negative then some (-(digitsValue radix z : Int))
  else some (digitsValue radix z)

/-- Function `parseInt` with one argument. -/
def parseInt (text : String) : Num :=
  match parseIntValue text with
  | none => .nan
  | some n => Num.ofInt n

/-- What `updateLiveStats` does to the text of one element: it leaves it, or
assigns a Number to `textContent`. -/
inductive StatUpdate where
  | unchanged
  | assign (v : Num)
  deriving DecidableEq, Repr

/-- The callback of `forEach` in `updateLiveStats` (lines 219 to 226) on an
element with the given text, `random` being the value `Math.random()` returns,
in units. -/
def updateStat (text : String) (random : Nat) : StatUpdate :=
  let current := parseInt text
  if !isNaN current then
    let change := (Num.finite random).timesTwo.minusOne
    let newValue := mathMaxZero (current.add change)
    .assign (mathRound newValue)
  else
    .unchanged

/-! ## Reading a trace -/

/-- The `showNotification` calls of a trace: message and type, in order. -/
def shown : List Action → List (JSValue × String)
  | [] => []
  | .showNotification message type :: rest => (message, type) :: shown rest
  | _ :: rest => shown rest

/-- The navigations scheduled by a trace: target and delay, in order. -/
def navigations : List Action → List (JSValue × Nat)
  | [] => []
  | .scheduleNavigation href delay :: rest => (href, delay) :: navigations rest
  | _ :: rest => navigations rest

/-- The `fetch` calls of a trace, in order. -/
def requests : List Action → List Request
  | [] => []
  | .fetch req :: rest => req :: requests rest
  | _ :: rest => requests rest

/-- The calls of a trace that write the value of the QR input field. -/
def inputWrites : List Action → List String
  | [] => []
  | .setQrInputValue v :: rest => v :: inputWrites rest
  | _ :: rest => inputWrites rest

/-- Number of `animateSuccess` calls of a trace. -/
def animations : List Action → Nat
  | [] => 0
  | .animateSuccess :: rest => animations rest + 1
  | _ :: rest => animations rest

/-- The response decoded and its property `key` read without an exception,
giving a falsy value. -/
def FetchResult.hasFalsy (net : FetchResult) (key : String) : Prop :=
  ∃ result v, net = .response (some result) ∧ getProp result key = .ok v ∧ truthy v = false

/-- The response decoded and its property `key` read without an exception,
giving a truthy value. -/
def FetchResult.hasTruthy (net : FetchResult) (key : String) : Prop :=
  ∃ result v, net = .response (some result) ∧ getProp result key = .ok v ∧ truthy v = true

/-- The request failed: `fetch` rejected, or `response.json()` did. -/
def FetchResult.failed (net : FetchResult) : Prop :=
  net = .rejected ∨ net = .response none

/-- The marker looked for in a scanned code. -/
def marker : List Char := "ATTEND:".data

/-! # Theorems -/

/-! ## Strings: lemmas -/

theorem occursIn_iff (needle hay : List Char) :
    occursIn needle hay = true ↔ needle <:+: hay := by
  induction hay with
  | nil => simp [occursIn, List.isEmpty_iff]
  | cons c cs ih =>
    simp only [occursIn, Bool.or_eq_true, ih, List.infix_cons_iff, List.isPrefixOf_iff_prefix]

theorem jsIncludes_iff (s needle : String) :
    jsIncludes s needle = true ↔ needle.data <:+: s.data := by
  simp [jsIncludes, occursIn_iff]

theorem infix_dropWhile_of_head (p : Char → Bool) (c : Char) (t : List Char)
    (hc : p c = false) (l : List Char) (h : (c :: t) <:+: l) :
    (c :: t) <:+: l.dropWhile p := by
  induction l with
  | nil => simp at h
  | cons a l ih =>
    by_cases ha : p a = true
    · rw [List.dropWhile_cons_of_pos ha]
      rcases List.infix_cons_iff.1 h with hpre | hin
      · obtain ⟨u, hu⟩ := hpre
        simp only [List.cons_append, List.cons.injEq] at hu
        rw [hu.1, ha] at hc
        cases hc
      · exact ih hin
    · rw [List.dropWhile_cons_of_neg ha]
      exact h

theorem infix_rdropWhile_of_last (p : Char → Bool) (needle : List Char) (c : Char)
    (t : List Char) (hrev : needle.reverse = c :: t) (hc : p c = false) (l : List Char)
    (h : needle <:+: l) : needle <:+: l.rdropWhile p := by
  have h1 : (c :: t) <:+: l.reverse := by
    rw [← hrev]
    exact List.reverse_infix.2 h
  have h2 := infix_dropWhile_of_head p c t hc l.reverse h1
  rw [← hrev] at h2
  have h3 := List.reverse_infix.2 h2
  simpa [List.rdropWhile] using h3

theorem marker_infix_trim (s : String) (h : marker <:+: s.data) :
    marker <:+: (jsTrim s).data := by
  have h1 : marker <:+: s.data.dropWhile isWhiteSpace :=
    infix_dropWhile_of_head isWhiteSpace 'A' ['T', 'T', 'E', 'N', 'D', ':'] (by decide) _ h
  exact infix_rdropWhile_of_last isWhiteSpace marker ':' ['D', 'N', 'E', 'T', 'T', 'A']
    (by decide) (by decide) _ h1

theorem jsTrim_within (s : String) : (jsTrim s).data <:+: s.data :=
  ((List.rdropWhile_prefix isWhiteSpace _).isInfix).trans
    (List.dropWhile_suffix isWhiteSpace).isInfix

theorem qrInputCallback_trace (s : String) :
    (qrInputCallback debounceReceiver s).trace =
      if 10 < jsLength (jsTrim s) ∧ marker <:+: (jsTrim s).data then
        [Action.submitAttendance (jsTrim s)]
      else [] := by
  by_cases h : 10 < jsLength (jsTrim s) ∧ marker <:+: (jsTrim s).data
  · have hb : (decide (jsLength (jsTrim s) > 10) && jsIncludes (jsTrim s) "ATTEND:") = true := by
      simp only [gt_iff_lt, Bool.and_eq_true, decide_eq_true_eq, jsIncludes_iff]
      exact h
    simp only [qrInputCallback, hb, if_pos h]
    rfl
  · have hb : ¬ (decide (jsLength (jsTrim s) > 10) && jsIncludes (jsTrim s) "ATTEND:") = true := by
      simp only [gt_iff_lt, Bool.and_eq_true, decide_eq_true_eq, jsIncludes_iff]
      exact h
    simp only [qrInputCallback, hb, if_neg h]
    rfl

/-- With a receiver other than the system the callback never reaches
`submitAttendance`. -/
theorem qrInputCallback_other (s : String) :
    (qrInputCallback .other s).trace = [] := by
  by_cases hb : (decide (jsLength (jsTrim s) > 10) && jsIncludes (jsTrim s) "ATTEND:") = true
  · simp only [qrInputCallback, hb]
    rfl
  · simp only [qrInputCallback, hb]
    rfl

/-! ## The QR input callback -/

/-- C8: the debounced input callback calls `submitAttendance`, once and with
the trimmed value as argument, exactly when the trimmed value is longer than
10 and contains `ATTEND:`; otherwise it makes no call, and a value that does
not contain the marker is never submitted. -/
theorem qrInputCallback_valid_iff (s : String) :
    ((qrInputCallback debounceReceiver s).trace = [Action.submitAttendance (jsTrim s)] ↔
      (10 < jsLength (jsTrim s) ∧ marker <:+: (jsTrim s).data)) ∧
    ((qrInputCallback debounceReceiver s).trace = [] ↔
      ¬ (10 < jsLength (jsTrim s) ∧ marker <:+: (jsTrim s).data)) ∧
    (¬ marker <:+: s.data → (qrInputCallback debounceReceiver s).trace = []) := by
  rw [qrInputCallback_trace]
  by_cases h : 10 < jsLength (jsTrim s) ∧ marker <:+: (jsTrim s).data
  · refine ⟨?_, ?_, ?_⟩
    · simp [h]
    · simp [h]
    · intro hn
      exact absurd (h.2.trans (jsTrim_within s)) hn
  · refine ⟨?_, ?_, ?_⟩
    · simp [h]
    · simp [h]
    · intro _
      simp [h]

/-- C1, as stated, fails: the value `ATTEND:1` contains the marker and the
callback makes no call on it. -/
theorem qrInputCallback_marker_not_enough :
    marker <:+: "ATTEND:1".data ∧ (qrInputCallback debounceReceiver "ATTEND:1").trace = [] :=
  ⟨⟨[], ['1'], rfl⟩, rfl⟩

/-- C1, amended: for every value that contains the marker `ATTEND:` and whose
trimmed form is longer than 10, the callback submits the scan: it calls
`submitAttendance` on the trimmed value. -/
theorem qrInputCallback_submits (s : String) (hmarker : marker <:+: s.data)
    (hlen : 10 < jsLength (jsTrim s)) :
    (qrInputCallback debounceReceiver s).trace = [Action.submitAttendance (jsTrim s)] := by
  rw [qrInputCallback_trace, if_pos ⟨hlen, marker_infix_trim s hmarker⟩]

/-- The amended C1 on the scanned value ` ATTEND:12345`. -/
theorem qrInputCallback_submits_witness :
    marker <:+: " ATTEND:12345".data ∧ 10 < jsLength (jsTrim " ATTEND:12345") ∧
      (qrInputCallback debounceReceiver " ATTEND:12345").trace =
        [Action.submitAttendance (jsTrim " ATTEND:12345")] :=
  ⟨⟨[' '], ['1', '2', '3', '4', '5'], rfl⟩, by decide,
    qrInputCallback_submits " ATTEND:12345" ⟨[' '], ['1', '2', '3', '4', '5'], rfl⟩ (by decide)⟩

/-! ## Property reads -/

theorem getProp_ok (r : JSValue) (hnull : r ≠ .null) (hundef : r ≠ .undefined) (k : String) :
    ∃ v, getProp r k = .ok v := by
  cases r with
  | undefined => exact absurd rfl hundef
  | null => exact absurd rfl hnull
  | object fields =>
    simp only [getProp]
    split <;> simp
  | _ => exact ⟨.undefined, rfl⟩

theorem getProp_ok_other (r : JSValue) (k k' : String) (v : JSValue)
    (h : getProp r k = .ok v) : ∃ w, getProp r k' = .ok w := by
  apply getProp_ok
  · rintro rfl
    simp [getProp] at h
  · rintro rfl
    simp [getProp] at h

theorem getProp_error (r : JSValue) (k : String) (e : JSError) (h : getProp r k = .error e) :
    r = .null ∨ r = .undefined := by
  by_contra hne
  push_neg at hne
  obtain ⟨v, hv⟩ := getProp_ok r hne.1 hne.2 k
  rw [hv] at h
  cases h

/-! ## Form submission: traces -/

theorem submitForm_failed (num : ℚ → String) (form : Form) (net : FetchResult)
    (h : net.failed) :
    submitForm num form net =
      ⟨[.fetch { url := form.action, method := requestMethod form,
                 headers := [("X-Requested-With", "XMLHttpRequest")],
                 body := .formData form.entries },
        .showNotification (.string "Network error. Please try again.") "error",
        .consoleError "Form submission error:"], .ok ()⟩ := by
  rcases h with rfl | rfl <;>
    simp [submitForm, tryCatch, awaitFetch, awaitJson, evaluate, perform, bind, Eff.andThen]

theorem submitForm_throwing (num : ℚ → String) (form : Form) (result : JSValue)
    (e : JSError) (h : getProp result "success" = .error e) :
    submitForm num form (.response (some result)) =
      ⟨[.fetch { url := form.action, method := requestMethod form,
                 headers := [("X-Requested-With", "XMLHttpRequest")],
                 body := .formData form.entries },
        .showNotification (.string "Network error. Please try again.") "error",
        .consoleError "Form submission error:"], .ok ()⟩ := by
  simp [submitForm, tryCatch, awaitFetch, awaitJson, evaluate, perform, bind, Eff.andThen, h]

theorem submitForm_decoded (num : ℚ → String) (form : Form)
    (result success message redirect error : JSValue)
    (hs : getProp result "success" = .ok success)
    (hm : getProp result "message" = .ok message)
    (hr : getProp result "redirect" = .ok redirect)
    (he : getProp result "error" = .ok error) (text : String)
    (hconv : textContentOf num (if truthy success then message else error) = .ok text) :
    submitForm num form (.response (some result)) =
      ⟨.fetch { url := form.action, method := requestMethod form,
                headers := [("X-Requested-With", "XMLHttpRequest")],
                body := .formData form.entries } ::
        (if truthy success then
          .showNotification message "success" ::
            (if truthy redirect then [.scheduleNavigation redirect 1500] else [])
        else [.showNotification error "error"]), .ok ()⟩ := by
  by_cases h1 : truthy success = true
  · rw [if_pos h1] at hconv
    by_cases h2 : truthy redirect = true <;>
      simp [submitForm, showNotificationCall, tryCatch, awaitFetch, awaitJson, evaluate,
        perform, bind, Eff.andThen, pure, hs, hm, hr, he, h1, h2, hconv]
  · rw [if_neg h1] at hconv
    simp [submitForm, showNotificationCall, tryCatch, awaitFetch, awaitJson, evaluate,
      perform, bind, Eff.andThen, pure, hs, hm, hr, he, h1, hconv]

theorem submitForm_unconvertible (num : ℚ → String) (form : Form)
    (result success message error : JSValue)
    (hs : getProp result "success" = .ok success)
    (hm : getProp result "message" = .ok message)
    (he : getProp result "error" = .ok error) (e : JSError)
    (hconv : textContentOf num (if truthy success then message else error) = .error e) :
    submitForm num form (.response (some result)) =
      ⟨[.fetch { url := form.action, method := requestMethod form,
                 headers := [("X-Requested-With", "XMLHttpRequest")],
                 body := .formData form.entries },
        .showNotificationThrows (if truthy success then message else error)
          (if truthy success then "success" else "error"),
        .showNotification (.string "Network error. Please try again.") "error",
        .consoleError "Form submission error:"], .ok ()⟩ := by
  by_cases h1 : truthy success = true
  · rw [if_pos h1] at hconv
    simp [submitForm, showNotificationCall, tryCatch, awaitFetch, awaitJson, evaluate,
      perform, bind, Eff.andThen, pure, hs, hm, he, h1, hconv]
  · rw [if_neg h1] at hconv
    simp [submitForm, showNotificationCall, tryCatch, awaitFetch, awaitJson, evaluate,
      perform, bind, Eff.andThen, pure, hs, hm, he, h1, hconv]

theorem net_cases (net : FetchResult) (key : String) :
    net.failed ∨
    (∃ result e, net = .response (some result) ∧ getProp result key = .error e) ∨
    (∃ result v, net = .response (some result) ∧ getProp result key = .ok v) := by
  cases net with
  | rejected => exact Or.inl (Or.inl rfl)
  | response json =>
    cases json with
    | none => exact Or.inl (Or.inr rfl)
    | some result =>
      cases h : getProp result key with
      | error e => exact Or.inr (Or.inl ⟨result, e, rfl, h⟩)
      | ok v => exact Or.inr (Or.inr ⟨result, v, rfl, h⟩)

/-! ## Attendance submission: traces -/

theorem submitAttendance_failed (num : ℚ → String) (hasQrInput : Bool)
    (qrData : String) (net : FetchResult) (h : net.failed) :
    submitAttendance num hasQrInput qrData net =
      ⟨[.fetch { url := some "/mark_attendance", method := "POST",
                 headers := [("Content-Type", "application/json")],
                 body := .text (stringifyQrData qrData) },
        .showNotification (.string "❌ Network error. Please try again.") "error"],
        .ok ()⟩ := by
  rcases h with rfl | rfl <;>
    simp [submitAttendance, tryCatch, awaitFetch, awaitJson, evaluate, perform, bind,
      Eff.andThen]

theorem submitAttendance_throwing (num : ℚ → String) (hasQrInput : Bool)
    (qrData : String) (result : JSValue) (e : JSError)
    (h : getProp result "success" = .error e) :
    submitAttendance num hasQrInput qrData (.response (some result)) =
      ⟨[.fetch { url := some "/mark_attendance", method := "POST",
                 headers := [("Content-Type", "application/json")],
                 body := .text (stringifyQrData qrData) },
        .showNotification (.string "❌ Network error. Please try again.") "error"],
        .ok ()⟩ := by
  simp [submitAttendance, tryCatch, awaitFetch, awaitJson, evaluate, perform, bind,
    Eff.andThen, h]

theorem submitAttendance_marked (num : ℚ → String) (hasQrInput : Bool)
    (qrData : String) (result success : JSValue)
    (hs : getProp result "success" = .ok success) (ht : truthy success = true) :
    submitAttendance num hasQrInput qrData (.response (some result)) =
      ⟨.fetch { url := some "/mark_attendance", method := "POST",
                headers := [("Content-Type", "application/json")],
                body := .text (stringifyQrData qrData) } ::
        .showNotification (.string "✅ Attendance marked successfully!") "success" ::
          ((if hasQrInput then [.setQrInputValue "", .focusQrInput] else []) ++
            [.animateSuccess]), .ok ()⟩ := by
  cases hasQrInput <;>
    simp [submitAttendance, tryCatch, awaitFetch, awaitJson, evaluate, perform, bind,
      Eff.andThen, pure, hs, ht]

theorem submitAttendance_refused (num : ℚ → String) (hasQrInput : Bool)
    (qrData : String) (result success error : JSValue)
    (hs : getProp result "success" = .ok success) (hf : truthy success = false)
    (he : getProp result "error" = .ok error) (text : String)
    (hconv : toJSString num error = .ok text) :
    submitAttendance num hasQrInput qrData (.response (some result)) =
      ⟨[.fetch { url := some "/mark_attendance", method := "POST",
                 headers := [("Content-Type", "application/json")],
                 body := .text (stringifyQrData qrData) },
        .showNotification (.string ("❌ " ++ text)) "error"], .ok ()⟩ := by
  simp [submitAttendance, tryCatch, awaitFetch, awaitJson, evaluate, perform, bind,
    Eff.andThen, pure, hs, hf, he, hconv]

theorem submitAttendance_unconvertible (num : ℚ → String) (hasQrInput : Bool)
    (qrData : String) (result success error : JSValue)
    (hs : getProp result "success" = .ok success) (hf : truthy success = false)
    (he : getProp result "error" = .ok error) (e : JSError)
    (hconv : toJSString num error = .error e) :
    submitAttendance num hasQrInput qrData (.response (some result)) =
      ⟨[.fetch { url := some "/mark_attendance", method := "POST",
                 headers := [("Content-Type", "application/json")],
                 body := .text (stringifyQrData qrData) },
        .showNotification (.string "❌ Network error. Please try again.") "error"],
        .ok ()⟩ := by
  simp [submitAttendance, tryCatch, awaitFetch, awaitJson, evaluate, perform, bind,
    Eff.andThen, pure, hs, hf, he, hconv]

/-! ## Session check: traces -/

theorem checkSession_failed (net : FetchResult) (h : net.failed) :
    checkSession net =
      ⟨[.fetch { url := some "/check_session", method := "GET", headers := [],
                 body := .absent },
        .consoleError "Session check failed:"], .ok ()⟩ := by
  rcases h with rfl | rfl <;>
    simp [checkSession, tryCatch, awaitFetch, awaitJson, evaluate, perform, bind, Eff.andThen]

theorem checkSession_throwing (result : JSValue) (e : JSError)
    (h : getProp result "valid" = .error e) :
    checkSession (.response (some result)) =
      ⟨[.fetch { url := some "/check_session", method := "GET", headers := [],
                 body := .absent },
        .consoleError "Session check failed:"], .ok ()⟩ := by
  simp [checkSession, tryCatch, awaitFetch, awaitJson, evaluate, perform, bind, Eff.andThen, h]

theorem checkSession_decoded (result valid : JSValue)
    (h : getProp result "valid" = .ok valid) :
    checkSession (.response (some result)) =
      ⟨.fetch { url := some "/check_session", method := "GET", headers := [],
                body := .absent } ::
        (if truthy valid then []
        else [.showNotification (.string "Session expired. Please login again.") "warning",
              .scheduleNavigation (.string "/") 2000]), .ok ()⟩ := by
  by_cases h1 : truthy valid = true <;>
    simp [checkSession, tryCatch, awaitFetch, awaitJson, evaluate, perform, bind, Eff.andThen,
      pure, h, h1]

theorem hasFalsy_of (result v : JSValue) (key : String)
    (h : getProp result key = .ok v) :
    (FetchResult.response (some result)).hasFalsy key ↔ truthy v = false := by
  constructor
  · rintro ⟨r, w, hr, hw, ht⟩
    cases hr
    rw [h] at hw
    cases hw
    exact ht
  · intro ht
    exact ⟨result, v, rfl, h, ht⟩

theorem hasTruthy_of (result v : JSValue) (key : String)
    (h : getProp result key = .ok v) :
    (FetchResult.response (some result)).hasTruthy key ↔ truthy v = true := by
  constructor
  · rintro ⟨r, w, hr, hw, ht⟩
    cases hr
    rw [h] at hw
    cases hw
    exact ht
  · intro ht
    exact ⟨result, v, rfl, h, ht⟩

theorem not_hasFalsy_of_failed (net : FetchResult) (key : String) (h : net.failed) :
    ¬ net.hasFalsy key := by
  rintro ⟨r, w, hr, _, _⟩
  rcases h with h | h <;> rw [h] at hr <;> cases hr

theorem not_hasTruthy_of_failed (net : FetchResult) (key : String) (h : net.failed) :
    ¬ net.hasTruthy key := by
  rintro ⟨r, w, hr, _, _⟩
  rcases h with h | h <;> rw [h] at hr <;> cases hr

theorem not_hasFalsy_of_error (result : JSValue) (key : String) (e : JSError)
    (h : getProp result key = .error e) :
    ¬ (FetchResult.response (some result)).hasFalsy key := by
  rintro ⟨r, w, hr, hw, _⟩
  cases hr
  rw [h] at hw
  cases hw

theorem not_hasTruthy_of_error (result : JSValue) (key : String) (e : JSError)
    (h : getProp result key = .error e) :
    ¬ (FetchResult.response (some result)).hasTruthy key := by
  rintro ⟨r, w, hr, hw, _⟩
  cases hr
  rw [h] at hw
  cases hw

/-! ## Claims on the three network operations -/

/-- C3: when `fetch` or the decoding of the response throws, `submitForm` and
`submitAttendance` catch it: each shows exactly one notification, of type
`error`, with the generic network-error text (after `❌ ` in
`submitAttendance`), schedules no navigation, does not write the QR input,
and its promise is fulfilled. -/
theorem submit_failure_is_caught (form : Form) (num : ℚ → String)
    (hasQrInput : Bool) (qrData : String) (net : FetchResult) (h : net.failed) :
    (shown (submitForm num form net).trace =
        [(.string "Network error. Please try again.", "error")] ∧
      navigations (submitForm num form net).trace = [] ∧
      inputWrites (submitForm num form net).trace = [] ∧
      (submitForm num form net).promise = .fulfilled) ∧
    (shown (submitAttendance num hasQrInput qrData net).trace =
        [(.string "❌ Network error. Please try again.", "error")] ∧
      navigations (submitAttendance num hasQrInput qrData net).trace = [] ∧
      inputWrites (submitAttendance num hasQrInput qrData net).trace = [] ∧
      (submitAttendance num hasQrInput qrData net).promise = .fulfilled) := by
  rw [submitForm_failed num form net h, submitAttendance_failed num hasQrInput qrData net h]
  simp [shown, navigations, inputWrites, Eff.promise]

/-- C3 on a login form whose request is rejected. -/
theorem submit_failure_is_caught_witness :
    FetchResult.failed .rejected ∧
      shown (submitForm (fun _ => "0") ⟨some "/login", none, [], none⟩ .rejected).trace =
        [(.string "Network error. Please try again.", "error")] :=
  ⟨Or.inl rfl,
    (submit_failure_is_caught ⟨some "/login", none, [], none⟩ (fun _ => "0") true "ATTEND:1"
      .rejected (Or.inl rfl)).1.1⟩

/-- C4: one call of `submitAttendance` makes exactly one `fetch` call, whatever
the network answers: to `/mark_attendance`, with method `POST`, the header
`Content-Type: application/json`, and the body
`JSON.stringify({ qr_data: qrData })`. -/
theorem submitAttendance_request (num : ℚ → String) (hasQrInput : Bool)
    (qrData : String) (net : FetchResult) :
    requests (submitAttendance num hasQrInput qrData net).trace =
      [{ url := some "/mark_attendance", method := "POST",
         headers := [("Content-Type", "application/json")],
         body := .text (stringifyQrData qrData) }] := by
  rcases net_cases net "success" with h | ⟨result, e, rfl, h⟩ | ⟨result, v, rfl, h⟩
  · rw [submitAttendance_failed num hasQrInput qrData net h]
    simp [requests]
  · rw [submitAttendance_throwing num hasQrInput qrData result e h]
    simp [requests]
  · by_cases ht : truthy v = true
    · rw [submitAttendance_marked num hasQrInput qrData result v h ht]
      cases hasQrInput <;> simp [requests]
    · have hf : truthy v = false := by simpa using ht
      obtain ⟨er, her⟩ := getProp_ok_other result "success" "error" v h
      cases hconv : toJSString num er with
      | ok text =>
        rw [submitAttendance_refused num hasQrInput qrData result v er h hf her text hconv]
        simp [requests]
      | error e =>
        rw [submitAttendance_unconvertible num hasQrInput qrData result v er h hf her e hconv]
        simp [requests]

/-- C7: one poll of `/check_session` shows the session-expired warning and
schedules the navigation to `/` after 2000 ms exactly when the response
decodes and its `valid` property reads as a falsy value; in every other case
(a truthy `valid`, a failed request, a response on which the read throws) it
shows no notification and schedules no navigation. -/
theorem checkSession_outcome (net : FetchResult) :
    (net.hasFalsy "valid" ↔
      (shown (checkSession net).trace =
          [(.string "Session expired. Please login again.", "warning")] ∧
        navigations (checkSession net).trace = [(.string "/", 2000)])) ∧
    (¬ net.hasFalsy "valid" ↔
      (shown (checkSession net).trace = [] ∧ navigations (checkSession net).trace = [])) ∧
    (net.hasTruthy "valid" ∨ net.failed → ¬ net.hasFalsy "valid") ∧
    requests (checkSession net).trace =
      [{ url := some "/check_session", method := "GET", headers := [], body := .absent }] := by
  rcases net_cases net "valid" with h | ⟨result, e, rfl, h⟩ | ⟨result, v, rfl, h⟩
  · have hn := not_hasFalsy_of_failed net "valid" h
    rw [checkSession_failed net h]
    simp [shown, navigations, requests, hn]
  · have hn := not_hasFalsy_of_error result "valid" e h
    rw [checkSession_throwing result e h]
    simp [shown, navigations, requests, hn]
  · rw [checkSession_decoded result v h, hasFalsy_of result v "valid" h,
      hasTruthy_of result v "valid" h]
    by_cases ht : truthy v = true
    · simp [shown, navigations, requests, ht]
    · have hf : truthy v = false := by simpa using ht
      simp [shown, navigations, requests, hf, FetchResult.failed]

/-- C9, as stated, fails: on the response
`{"success": false, "error": {"toString": 1}}` the `error` has no primitive
value, the concatenation of line 135 throws, and the notification shown
carries the generic network-error text instead of the `error` of the
response. -/
theorem submitAttendance_error_without_text :
    (FetchResult.response (some (.object [("success", .bool false),
        ("error", .object [("toString", .number 1)])]))).hasFalsy "success" ∧
      toJSString (fun _ => "1") (.object [("toString", .number 1)]) = .error .typeError ∧
      shown (submitAttendance (fun _ => "1") true "ATTEND:12345"
        (.response (some (.object [("success", .bool false),
          ("error", .object [("toString", .number 1)])])))).trace =
        [(.string "❌ Network error. Please try again.", "error")] :=
  ⟨⟨_, .bool false, rfl, rfl, rfl⟩, rfl, rfl⟩

/-- C9, amended: with the QR input on the page, `submitAttendance` clears the
input and adds the success animation exactly when the response decodes with a
truthy `success`, and the notification is then the success message; on a
response with a falsy `success` the value of the input is left as it was, no
animation is added, and exactly one notification is shown, of type `error`:
with the text `❌ ` followed by the `error` of the response when that `error`
converts to a string, and with the generic network-error text when the
conversion throws. -/
theorem submitAttendance_completion (num : ℚ → String) (qrData value : String)
    (net : FetchResult) :
    ((inputWrites (submitAttendance num true qrData net).trace = [""] ∧
        animations (submitAttendance num true qrData net).trace = 1) ↔
      net.hasTruthy "success") ∧
    (net.hasTruthy "success" →
      shown (submitAttendance num true qrData net).trace =
          [(.string "✅ Attendance marked successfully!", "success")] ∧
        qrInputValueAfter value (submitAttendance num true qrData net).trace = "") ∧
    (net.hasFalsy "success" →
      ∃ result error, net = .response (some result) ∧ getProp result "error" = .ok error ∧
        (∀ text, toJSString num error = .ok text →
          shown (submitAttendance num true qrData net).trace =
            [(.string ("❌ " ++ text), "error")]) ∧
        (∀ e, toJSString num error = .error e →
          shown (submitAttendance num true qrData net).trace =
            [(.string "❌ Network error. Please try again.", "error")]) ∧
        qrInputValueAfter value (submitAttendance num true qrData net).trace = value ∧
        inputWrites (submitAttendance num true qrData net).trace = [] ∧
        animations (submitAttendance num true qrData net).trace = 0) := by
  rcases net_cases net "success" with h | ⟨result, e, rfl, h⟩ | ⟨result, v, rfl, h⟩
  · have hn := not_hasFalsy_of_failed net "success" h
    have hn2 := not_hasTruthy_of_failed net "success" h
    rw [submitAttendance_failed num true qrData net h]
    simp [inputWrites, animations, hn, hn2]
  · have hn := not_hasFalsy_of_error result "success" e h
    have hn2 := not_hasTruthy_of_error result "success" e h
    rw [submitAttendance_throwing num true qrData result e h]
    simp [inputWrites, animations, hn, hn2]
  · rw [hasFalsy_of result v "success" h, hasTruthy_of result v "success" h]
    by_cases ht : truthy v = true
    · rw [submitAttendance_marked num true qrData result v h ht]
      simp [shown, inputWrites, animations, qrInputValueAfter, ht]
    · have hf : truthy v = false := by simpa using ht
      obtain ⟨er, her⟩ := getProp_ok_other result "success" "error" v h
      cases hconv : toJSString num er with
      | ok text =>
        rw [submitAttendance_refused num true qrData result v er h hf her text hconv]
        simp [shown, inputWrites, animations, qrInputValueAfter, hf, her, hconv]
      | error e =>
        rw [submitAttendance_unconvertible num true qrData result v er h hf her e hconv]
        simp [shown, inputWrites, animations, qrInputValueAfter, hf, her, hconv]

/-- C10, as stated, fails, in two ways. On the decoded response `null` there
is no `error` to read, and the notification shown carries the generic
network-error text. On the response
`{"success": true, "message": {"toString": 0}, "redirect": "/home"}` the
`message` cannot be stored as `textContent`: `showNotification` throws, the
notification shown is the generic one, of type `error`, and no navigation is
scheduled although `success` and `redirect` are truthy. -/
theorem submitForm_generic_error :
    (getProp .null "error" = .error .typeError ∧
      shown (submitForm (fun _ => "0") ⟨some "/login", some "post", [], none⟩
        (.response (some .null))).trace =
        [(.string "Network error. Please try again.", "error")]) ∧
    (shown (submitForm (fun _ => "0") ⟨some "/login", some "post", [], none⟩
        (.response (some (.object [("success", .bool true),
          ("message", .object [("toString", .number 0)]),
          ("redirect", .string "/home")])))).trace =
        [(.string "Network error. Please try again.", "error")] ∧
      navigations (submitForm (fun _ => "0") ⟨some "/login", some "post", [], none⟩
        (.response (some (.object [("success", .bool true),
          ("message", .object [("toString", .number 0)]),
          ("redirect", .string "/home")])))).trace = []) :=
  ⟨⟨rfl, rfl⟩, rfl, rfl⟩

/-- C10, amended: for every decoded response other than `null` whose
notification text (its `message` when `success` is truthy, its `error`
otherwise) can be stored as `textContent`, `submitForm` shows exactly one
notification, of type `success` with the `message` of the response when its
`success` is truthy and of type `error` with its `error` otherwise; a
navigation to its `redirect` is scheduled (after 1500 ms) exactly when both
`success` and `redirect` are truthy; the one request made has the `method`
attribute of the form as method, or `POST` when the attribute is absent or
empty. (`undefined` is not a value that `response.json()` yields.) -/
theorem submitForm_dispatch (num : ℚ → String) (form : Form) (result : JSValue)
    (hnull : result ≠ .null) (hundefined : result ≠ .undefined)
    (hconv : ∀ success v, getProp result "success" = .ok success →
      getProp result (if truthy success then "message" else "error") = .ok v →
      ∃ text, textContentOf num v = .ok text) :
    ∃ success message error redirect,
      getProp result "success" = .ok success ∧ getProp result "message" = .ok message ∧
      getProp result "error" = .ok error ∧ getProp result "redirect" = .ok redirect ∧
      shown (submitForm num form (.response (some result))).trace =
        [if truthy success then (message, "success") else (error, "error")] ∧
      navigations (submitForm num form (.response (some result))).trace =
        (if truthy success && truthy redirect then [(redirect, 1500)] else []) ∧
      requests (submitForm num form (.response (some result))).trace =
        [{ url := form.action, method := requestMethod form,
           headers := [("X-Requested-With", "XMLHttpRequest")],
           body := .formData form.entries }] ∧
      (∀ m, form.method = some m → m ≠ "" → requestMethod form = m) ∧
      (form.method = none ∨ form.method = some "" → requestMethod form = "POST") := by
  obtain ⟨success, hs⟩ := getProp_ok result hnull hundefined "success"
  obtain ⟨message, hm⟩ := getProp_ok result hnull hundefined "message"
  obtain ⟨error, he⟩ := getProp_ok result hnull hundefined "error"
  obtain ⟨redirect, hr⟩ := getProp_ok result hnull hundefined "redirect"
  have hshown : ∃ text,
      textContentOf num (if truthy success then message else error) = .ok text := by
    by_cases h1 : truthy success = true
    · rw [if_pos h1]
      exact hconv success message hs (by rw [if_pos h1]; exact hm)
    · rw [if_neg h1]
      exact hconv success error hs (by rw [if_neg h1]; exact he)
  obtain ⟨text, htext⟩ := hshown
  have htrace := submitForm_decoded num form result success message redirect error hs hm hr he
    text htext
  refine ⟨success, message, error, redirect, hs, hm, he, hr, ?_, ?_, ?_, ?_, ?_⟩
  · rw [htrace]
    by_cases h1 : truthy success = true <;> by_cases h2 : truthy redirect = true <;>
      simp [shown, h1, h2]
  · rw [htrace]
    by_cases h1 : truthy success = true <;> by_cases h2 : truthy redirect = true <;>
      simp [navigations, h1, h2]
  · rw [htrace]
    by_cases h1 : truthy success = true <;> by_cases h2 : truthy redirect = true <;>
      simp [requests, h1, h2]
  · intro m hm' hne
    simp [requestMethod, hm', hne]
  · rintro (h | h) <;> simp [requestMethod, h]

/-- The amended C10 on a refused login that carries a `redirect`: the error
notification is shown and no navigation is scheduled. -/
theorem submitForm_dispatch_witness :
    ∃ success message error redirect,
      getProp (.object [("success", .bool false), ("error", .string "Wrong password"),
        ("redirect", .string "/home")]) "success" = .ok success ∧
      getProp (.object [("success", .bool false), ("error", .string "Wrong password"),
        ("redirect", .string "/home")]) "message" = .ok message ∧
      getProp (.object [("success", .bool false), ("error", .string "Wrong password"),
        ("redirect", .string "/home")]) "error" = .ok error ∧
      getProp (.object [("success", .bool false), ("error", .string "Wrong password"),
        ("redirect", .string "/home")]) "redirect" = .ok redirect ∧
      shown (submitForm (fun _ => "0") ⟨some "/login", some "", [], none⟩ (.response (some
        (.object [("success", .bool false), ("error", .string "Wrong password"),
          ("redirect", .string "/home")])))).trace =
        [if truthy success then (message, "success") else (error, "error")] ∧
      navigations (submitForm (fun _ => "0") ⟨some "/login", some "", [], none⟩
        (.response (some (.object [("success", .bool false),
          ("error", .string "Wrong password"), ("redirect", .string "/home")])))).trace =
        (if truthy success && truthy redirect then [(redirect, 1500)] else []) ∧
      requests (submitForm (fun _ => "0") ⟨some "/login", some "", [], none⟩ (.response (some
        (.object [("success", .bool false), ("error", .string "Wrong password"),
          ("redirect", .string "/home")])))).trace =
        [{ url := some "/login", method := requestMethod ⟨some "/login", some "", [], none⟩,
           headers := [("X-Requested-With", "XMLHttpRequest")],
           body := .formData [] }] ∧
      (∀ m, (⟨some "/login", some "", [], none⟩ : Form).method = some m → m ≠ "" →
        requestMethod ⟨some "/login", some "", [], none⟩ = m) ∧
      ((⟨some "/login", some "", [], none⟩ : Form).method = none ∨
          (⟨some "/login", some "", [], none⟩ : Form).method = some "" →
        requestMethod ⟨some "/login", some "", [], none⟩ = "POST") :=
  submitForm_dispatch (fun _ => "0") ⟨some "/login", some "", [], none⟩
    (.object [("success", .bool false), ("error", .string "Wrong password"),
      ("redirect", .string "/home")])
    (by simp) (by simp)
    (by
      intro success v hs hv
      have e1 : success = .bool false := by
        have : (Except.ok (JSValue.bool false) : Except JSError JSValue) = .ok success := hs
        cases this
        rfl
      subst e1
      have e2 : v = .string "Wrong password" := by
        have : (Except.ok (JSValue.string "Wrong password") : Except JSError JSValue) =
            .ok v := hv
        cases this
        rfl
      subst e2
      exact ⟨"Wrong password", rfl⟩)

/-- C2 on a login form with no outer variable `originalText`: while the
submission is pending the button reads `Processing...` and is disabled, and
after `submitForm` has settled it still does, instead of reading `Login` and
being enabled. -/
theorem handleFormSubmit_button_not_restored :
    handleFormSubmit none ⟨some "/login", some "POST", [], some ⟨"Login", false⟩⟩ =
      (some ⟨"Processing...", true⟩, some ⟨"Processing...", true⟩) ∧
    finallyCallback none (some ⟨"Processing...", true⟩) =
      (some ⟨"Processing...", true⟩, some .referenceError) :=
  ⟨rfl, rfl⟩

/-! ## Notifications: the single-toast invariant -/

theorem removeAll_foldl (l doc : List Notification) :
    l.foldl (fun doc notif => removeElement notif.id doc) doc =
      doc.filter (fun x => !(l.any (fun n => n.id == x.id))) := by
  induction l generalizing doc with
  | nil => simp
  | cons a l ih =>
    rw [List.foldl_cons, ih, removeElement, List.filter_filter]
    apply List.filter_congr
    intro x _
    rw [List.any_cons]
    by_cases h : a.id = x.id
    · simp [h]
    · have e1 : (a.id == x.id) = false := beq_eq_false_iff_ne.2 h
      have e2 : (x.id != a.id) = true := bne_iff_ne.2 (fun e => h e.symm)
      rw [e1, e2]
      simp

theorem removeAll_self (l : List Notification) :
    l.foldl (fun doc notif => removeElement notif.id doc) l = [] := by
  rw [removeAll_foldl, List.filter_eq_nil_iff]
  intro x hx
  simp only [Bool.not_eq_true', List.any_eq_false, beq_iff_eq, not_forall, Classical.not_imp,
    Decidable.not_not]
  exact ⟨x, hx, rfl⟩

theorem showNotification_eq (message : String) (type : Option String) (page : Page) :
    showNotification message type page =
      { notifications :=
          [{ id := page.calls
             className := "system-notification alert alert-" ++ type.getD "info"
             textContent := message
             animation := "slideInRight 0.3s ease-out" }]
        timers := page.timers ++ [.fadeOut page.calls]
        calls := page.calls + 1 } := by
  simp [showNotification, removeAll_self]

theorem run_append (events : List PageEvent) (e : PageEvent) :
    Page.run (events ++ [e]) = (Page.run events).step e := by
  simp [Page.run, List.foldl_append]

theorem lastCall_append_call (events : List PageEvent) (message : String)
    (type : Option String) :
    lastCall (events ++ [.call message type]) = some (message, type) := by
  induction events with
  | nil => rfl
  | cons e events ih =>
    cases e with
    | call m t => simp [lastCall, ih]
    | fire k => simpa [lastCall] using ih

theorem lastCall_append_fire (events : List PageEvent) (k : Nat) :
    lastCall (events ++ [.fire k]) = lastCall events := by
  induction events with
  | nil => rfl
  | cons e events ih =>
    cases e with
    | call m t => simp [lastCall, ih]
    | fire j => simpa [lastCall] using ih

theorem callCount_append_call (events : List PageEvent) (message : String)
    (type : Option String) :
    callCount (events ++ [.call message type]) = callCount events + 1 := by
  induction events with
  | nil => rfl
  | cons e events ih => cases e <;> simp [callCount, ih]

theorem callCount_append_fire (events : List PageEvent) (k : Nat) :
    callCount (events ++ [.fire k]) = callCount events := by
  induction events with
  | nil => rfl
  | cons e events ih => cases e <;> simp [callCount, ih]

theorem fireCallback_calls (t : Timer) (page : Page) :
    (fireCallback t page).calls = page.calls := by
  cases t <;> rfl

theorem fireCallback_length (t : Timer) (page : Page) :
    (fireCallback t page).notifications.length ≤ page.notifications.length := by
  cases t with
  | fadeOut id => simp [fireCallback]
  | removal id => simpa [fireCallback, removeElement] using List.length_filter_le _ _

theorem fireCallback_mem (t : Timer) (page : Page) (n : Notification)
    (h : n ∈ (fireCallback t page).notifications) :
    ∃ m ∈ page.notifications,
      n.id = m.id ∧ n.textContent = m.textContent ∧ n.className = m.className := by
  cases t with
  | fadeOut id =>
    simp only [fireCallback, List.mem_map] at h
    obtain ⟨m, hm, rfl⟩ := h
    refine ⟨m, hm, ?_⟩
    split <;> simp
  | removal id =>
    simp only [fireCallback, removeElement, List.mem_filter] at h
    exact ⟨n, h.1, rfl, rfl, rfl⟩

theorem fireCallback_other (t : Timer) (page : Page)
    (h : ∀ n ∈ page.notifications, n.id ≠ t.owner) :
    (fireCallback t page).notifications = page.notifications := by
  cases t with
  | fadeOut id =>
    simp only [fireCallback]
    conv_rhs => rw [← List.map_id page.notifications]
    apply List.map_congr_left
    intro n hn
    have := h n hn
    simp only [Timer.owner] at this
    simp [this]
  | removal id =>
    simp only [fireCallback, removeElement, List.filter_eq_self]
    intro n hn
    have := h n hn
    simp only [Timer.owner] at this
    simp [this]

/-- The invariant carried along a run. -/
theorem run_invariant (events : List PageEvent) :
    (Page.run events).calls = callCount events ∧
    (Page.run events).notifications.length ≤ 1 ∧
    (∀ n ∈ (Page.run events).notifications, ∃ message type,
      lastCall events = some (message, type) ∧ n.id + 1 = callCount events ∧
      n.textContent = message ∧
      n.className = "system-notification alert alert-" ++ type.getD "info") := by
  induction events using List.reverseRecOn with
  | nil => simp [Page.run, Page.initial, callCount]
  | append_singleton events e ih =>
    obtain ⟨hcalls, hlen, hmem⟩ := ih
    rw [run_append]
    cases e with
    | call message type =>
      simp only [Page.step, showNotification_eq, lastCall_append_call, callCount_append_call]
      refine ⟨by rw [hcalls], by simp, ?_⟩
      intro n hn
      simp only [List.mem_singleton] at hn
      subst hn
      exact ⟨message, type, rfl, by simp [hcalls], rfl, rfl⟩
    | fire k =>
      simp only [Page.step, lastCall_append_fire, callCount_append_fire]
      cases hk : (Page.run events).timers.get? k with
      | none => exact ⟨hcalls, hlen, hmem⟩
      | some t =>
        simp only
        refine ⟨?_, ?_, ?_⟩
        · rw [fireCallback_calls]
          exact hcalls
        · exact (fireCallback_length t _).trans hlen
        · intro n hn
          obtain ⟨m, hm, hid, htext, hclass⟩ := fireCallback_mem t _ n hn
          obtain ⟨message, type, h1, h2, h3, h4⟩ := hmem m hm
          exact ⟨message, type, h1, by rw [hid]; exact h2, by rw [htext]; exact h3,
            by rw [hclass]; exact h4⟩

/-- C5: from a document without notification, after every sequence of
`showNotification` calls and firings of the timers they set, the document
holds at most one `.system-notification` element; an element it holds was
created by the most recent call and carries the message of that call as text
and its `alert-<type>` class; right after a call the document holds exactly
the element of that call; and the firing of a timer set by an earlier call
leaves the notifications as they are. -/
theorem single_notification (events : List PageEvent) :
    (Page.run events).notifications.length ≤ 1 ∧
    (∀ n ∈ (Page.run events).notifications, ∃ message type,
      lastCall events = some (message, type) ∧ n.id + 1 = callCount events ∧
      n.textContent = message ∧
      n.className = "system-notification alert alert-" ++ type.getD "info") ∧
    (∀ message type, (Page.run (events ++ [.call message type])).notifications =
      [{ id := callCount events
         className := "system-notification alert alert-" ++ type.getD "info"
         textContent := message
         animation := "slideInRight 0.3s ease-out" }]) ∧
    (∀ k t, (Page.run events).timers.get? k = some t → t.owner + 1 < callCount events →
      (Page.run (events ++ [.fire k])).notifications = (Page.run events).notifications) := by
  obtain ⟨hcalls, hlen, hmem⟩ := run_invariant events
  refine ⟨hlen, hmem, ?_, ?_⟩
  · intro message type
    rw [run_append]
    simp [Page.step, showNotification_eq, hcalls]
  · intro k t hk hlt
    rw [run_append]
    simp only [Page.step, hk]
    apply fireCallback_other
    intro n hn
    obtain ⟨_, _, _, hid, _, _⟩ := hmem n hn
    omega

/-! ## Numbers: rounding -/

theorem roundMagnitude_small (a : Nat) (h : a < 2 ^ 53) : roundMagnitude a = a := by
  unfold roundMagnitude
  rw [if_pos h]

theorem roundMagnitude_cases (a : Nat) (h : 2 ^ 53 ≤ a) :
    roundMagnitude a = a / 2 ^ (Nat.log2 a - 52) * 2 ^ (Nat.log2 a - 52) ∨
    (roundMagnitude a = (a / 2 ^ (Nat.log2 a - 52) + 1) * 2 ^ (Nat.log2 a - 52) ∧
      a % 2 ^ (Nat.log2 a - 52) ≠ 0) := by
  have hpos : 0 < 2 ^ (Nat.log2 a - 52 - 1) := Nat.two_pow_pos _
  unfold roundMagnitude
  rw [if_neg (not_lt.2 h)]
  dsimp only
  split_ifs with h1 h2 h3
  · exact Or.inl rfl
  · exact Or.inl rfl
  · exact Or.inr ⟨rfl, by omega⟩
  · exact Or.inr ⟨rfl, by omega⟩

theorem log2_sub_le (a k : Nat) (h : a < 2 ^ (53 + k)) : Nat.log2 a - 52 ≤ k := by
  by_cases h0 : a = 0
  · subst h0
    simp [Nat.log2]
  · have := (Nat.log2_lt h0).2 h
    omega

/-- A multiple of `2 ^ k` that bounds a magnitude below `2 ^ (53 + k)` also
bounds its rounding. -/
theorem roundMagnitude_bounds_lt (a M k : Nat) (ha : a < 2 ^ (53 + k)) (hM : 2 ^ k ∣ M) :
    (M ≤ a → M ≤ roundMagnitude a) ∧ (a ≤ M → roundMagnitude a ≤ M) := by
  by_cases hs : a < 2 ^ 53
  · rw [roundMagnitude_small a hs]
    exact ⟨id, id⟩
  · have hge : 2 ^ 53 ≤ a := not_lt.1 hs
    have he : Nat.log2 a - 52 ≤ k := log2_sub_le a k ha
    have hdvd : 2 ^ (Nat.log2 a - 52) ∣ M := (Nat.pow_dvd_pow 2 he).trans hM
    obtain ⟨m, rfl⟩ := hdvd
    have hpos : 0 < 2 ^ (Nat.log2 a - 52) := Nat.two_pow_pos _
    have hc := roundMagnitude_cases a hge
    generalize 2 ^ (Nat.log2 a - 52) = p at *
    generalize roundMagnitude a = r at *
    have hq : a / p * p ≤ a := Nat.div_mul_le_self a p
    have hmod := Nat.div_add_mod a p
    constructor
    · intro hle
      have hmq : m ≤ a / p := by
        rw [Nat.le_div_iff_mul_le hpos]
        calc m * p = p * m := Nat.mul_comm _ _
          _ ≤ a := hle
      have hmul : p * m ≤ a / p * p := by
        calc p * m = m * p := Nat.mul_comm _ _
          _ ≤ a / p * p := Nat.mul_le_mul_right p hmq
      rcases hc with h | ⟨h, _⟩
      · rw [h]
        exact hmul
      · rw [h, Nat.add_mul]
        omega
    · intro hle
      rcases hc with h | ⟨h, hrem⟩
      · rw [h]
        exact hq.trans hle
      · have hlt : a < p * m := by
          rcases Nat.lt_or_eq_of_le hle with h' | h'
          · exact h'
          · exfalso
            apply hrem
            rw [h']
            exact Nat.mul_mod_right p m
        have hqm : a / p < m := by
          rw [Nat.div_lt_iff_lt_mul hpos]
          calc a < p * m := hlt
            _ = m * p := Nat.mul_comm _ _
        rw [h]
        calc (a / p + 1) * p ≤ m * p := Nat.mul_le_mul_right p hqm
          _ = p * m := Nat.mul_comm _ _

theorem roundMagnitude_bounds (a M k : Nat) (ha : a ≤ 2 ^ (53 + k)) (hM : 2 ^ k ∣ M) :
    (M ≤ a → M ≤ roundMagnitude a) ∧ (a ≤ M → roundMagnitude a ≤ M) := by
  rcases Nat.lt_or_eq_of_le ha with h | h
  · exact roundMagnitude_bounds_lt a M k h hM
  · have hlt : a < 2 ^ (53 + (k + 1)) := by
      rw [h]
      exact Nat.pow_lt_pow_right (by norm_num) (by omega)
    have hdvd : 2 ^ (k + 1) ∣ a := by
      rw [h]
      exact Nat.pow_dvd_pow 2 (by omega)
    have hex := roundMagnitude_bounds_lt a a (k + 1) hlt hdvd
    have : roundMagnitude a = a := Nat.le_antisymm (hex.2 (Nat.le_refl a)) (hex.1 (Nat.le_refl a))
    rw [this]
    exact ⟨id, id⟩

theorem roundUnits_bounds (x L H : Int) (k : Nat) (hk : k ≤ 1075)
    (hx : x.natAbs ≤ 2 ^ (53 + k)) (hL : (2 : Int) ^ k ∣ L) (hH : (2 : Int) ^ k ∣ H)
    (hLx : L ≤ x) (hxH : x ≤ H) :
    ∃ y, roundUnits x = .finite y ∧ L ≤ y ∧ y ≤ H := by
  have hLn : 2 ^ k ∣ L.natAbs := by
    have := Int.natAbs_dvd_natAbs.2 hL
    simpa [Int.natAbs_pow] using this
  have hHn : 2 ^ k ∣ H.natAbs := by
    have := Int.natAbs_dvd_natAbs.2 hH
    simpa [Int.natAbs_pow] using this
  have hfin : roundMagnitude x.natAbs < 2 ^ 2098 := by
    have h1 := (roundMagnitude_bounds x.natAbs (2 ^ (53 + k)) k hx
      (Nat.pow_dvd_pow 2 (by omega))).2 hx
    have h2 : 2 ^ (53 + k) < 2 ^ 2098 := by
      apply Nat.pow_lt_pow_right
      · norm_num
      · omega
    exact Nat.lt_of_le_of_lt h1 h2
  have hbL := roundMagnitude_bounds x.natAbs L.natAbs k hx hLn
  have hbH := roundMagnitude_bounds x.natAbs H.natAbs k hx hHn
  unfold roundUnits
  dsimp only
  rw [if_pos hfin]
  refine ⟨_, rfl, ?_, ?_⟩
  · by_cases hneg : x < 0
    · rw [if_pos hneg]
      have := hbL.2 (by omega)
      omega
    · rw [if_neg hneg]
      by_cases hL0 : L ≤ 0
      · omega
      · have := hbL.1 (by omega)
        omega
  · by_cases hneg : x < 0
    · rw [if_pos hneg]
      by_cases hH0 : 0 ≤ H
      · omega
      · have := hbH.1 (by omega)
        omega
    · rw [if_neg hneg]
      have := hbH.2 (by omega)
      omega

/-! ## Numbers: the jitter of `updateLiveStats` -/

theorem oneUnits_pos : (0 : Int) < (oneUnits : Int) := by
  have : 0 < oneUnits := by
    unfold oneUnits
    positivity
  exact_mod_cast this

theorem pow_dvd_oneUnits_mul (j : Int) : (2 : Int) ^ 1074 ∣ j * (oneUnits : Int) := by
  refine Dvd.intro_left j ?_
  unfold oneUnits
  rw [Nat.cast_pow]
  rfl

theorem natAbs_le_of_units (x j : Int) (hj : j ≤ 2 ^ 53)
    (hlo : -(j * (oneUnits : Int)) ≤ x) (hhi : x ≤ j * (oneUnits : Int)) :
    x.natAbs ≤ 2 ^ (53 + 1074) := by
  have h1 : j * (oneUnits : Int) ≤ 2 ^ 53 * (oneUnits : Int) :=
    Int.mul_le_mul_of_nonneg_right hj (Int.le_of_lt oneUnits_pos)
  have h2 : (2 : Int) ^ 53 * (oneUnits : Int) = ((2 ^ (53 + 1074) : Nat) : Int) := by
    unfold oneUnits
    rw [Nat.cast_pow, Nat.cast_pow, pow_add]
    rfl
  rw [h2] at h1
  omega

/-- The rounding of a sum that lies between two whole numbers of absolute
value at most `2 ^ 53` lies between them too. -/
theorem roundUnits_between (x lo hi : Int) (hlo53 : -(2 ^ 53) ≤ lo) (hhi53 : hi ≤ 2 ^ 53)
    (hlo : lo * (oneUnits : Int) ≤ x) (hhi : x ≤ hi * (oneUnits : Int)) :
    ∃ y, roundUnits x = .finite y ∧ lo * (oneUnits : Int) ≤ y ∧ y ≤ hi * (oneUnits : Int) := by
  have hU := oneUnits_pos
  have hx : x.natAbs ≤ 2 ^ (53 + 1074) := by
    apply natAbs_le_of_units x (2 ^ 53) (Int.le_refl _)
    · have : -(2 ^ 53) * (oneUnits : Int) ≤ lo * (oneUnits : Int) :=
        Int.mul_le_mul_of_nonneg_right hlo53 (Int.le_of_lt hU)
      have e : -(2 ^ 53 * (oneUnits : Int)) = -(2 ^ 53) * (oneUnits : Int) := by ring
      rw [e]
      exact this.trans hlo
    · exact hhi.trans (Int.mul_le_mul_of_nonneg_right hhi53 (Int.le_of_lt hU))
  exact roundUnits_bounds x _ _ 1074 (by norm_num) hx (pow_dvd_oneUnits_mul lo)
    (pow_dvd_oneUnits_mul hi) hlo hhi

theorem ofInt_safe (n : Int) (h0 : 0 ≤ n) (hn : n < 2 ^ 53) :
    Num.ofInt n = .finite (n * (oneUnits : Int)) := by
  obtain ⟨y, hy, h1, h2⟩ := roundUnits_between (n * (oneUnits : Int)) n n (by omega) (by omega)
    (Int.le_refl _) (Int.le_refl _)
  rw [Num.ofInt, hy, Int.le_antisymm h2 h1]

theorem change_bounds (r : Nat) (hr : r < oneUnits) :
    ∃ c, (Num.finite r).timesTwo.minusOne = .finite c ∧
      -(oneUnits : Int) ≤ c ∧ c ≤ (oneUnits : Int) := by
  have hr' : (r : Int) < (oneUnits : Int) := by exact_mod_cast hr
  obtain ⟨a, ha, ha0, ha2⟩ := roundUnits_between (2 * (r : Int)) 0 2 (by norm_num)
    (by norm_num) (by omega) (by omega)
  obtain ⟨c, hc, hc1, hc2⟩ := roundUnits_between (a + -(oneUnits : Int)) (-1) 1 (by norm_num)
    (by norm_num) (by omega) (by omega)
  refine ⟨c, ?_, by omega, by omega⟩
  rw [Num.timesTwo, ha, Num.minusOne, Num.add, hc]

theorem mathRound_bounds (s n : Int) (h0 : 0 ≤ n)
    (hlo : (n - 1) * (oneUnits : Int) ≤ s) (hhi : s ≤ (n + 1) * (oneUnits : Int)) :
    ∃ v : Int, mathRound (mathMaxZero (.finite s)) = .finite (v * (oneUnits : Int)) ∧
      |v - n| ≤ 1 ∧ 0 ≤ v := by
  have hU := oneUnits_pos
  have e1 : (n - 1) * (oneUnits : Int) = n * (oneUnits : Int) - (oneUnits : Int) := by ring
  have e2 : (n + 1) * (oneUnits : Int) = n * (oneUnits : Int) + (oneUnits : Int) := by ring
  have hN : 0 ≤ n * (oneUnits : Int) := Int.mul_nonneg h0 (Int.le_of_lt hU)
  rw [e1] at hlo
  rw [e2] at hhi
  have h2U : (0 : Int) < 2 * (oneUnits : Int) := by omega
  refine ⟨(2 * max 0 s + (oneUnits : Int)) / (2 * (oneUnits : Int)), ?_, ?_, ?_⟩
  · simp only [mathMaxZero, mathRound]
    rw [Int.fdiv_eq_ediv _ (Int.le_of_lt h2U)]
  · have hge : n - 1 ≤ (2 * max 0 s + (oneUnits : Int)) / (2 * (oneUnits : Int)) := by
      apply Int.le_ediv_of_mul_le h2U
      have e : (n - 1) * (2 * (oneUnits : Int)) =
          2 * (n * (oneUnits : Int)) - 2 * (oneUnits : Int) := by ring
      rw [e]
      omega
    have hlt : (2 * max 0 s + (oneUnits : Int)) / (2 * (oneUnits : Int)) < n + 2 := by
      apply Int.ediv_lt_of_lt_mul h2U
      have e : (n + 2) * (2 * (oneUnits : Int)) =
          2 * (n * (oneUnits : Int)) + 4 * (oneUnits : Int) := by ring
      rw [e]
      omega
    rw [abs_le]
    constructor <;> omega
  · apply Int.ediv_nonneg _ (Int.le_of_lt h2U)
    omega

theorem roundUnits_natCast (a : Nat) (h : roundMagnitude a < 2 ^ 2098) :
    roundUnits (a : Int) = .finite (roundMagnitude a : Int) := by
  unfold roundUnits
  dsimp only
  rw [Int.natAbs_ofNat, if_pos h, if_neg (by omega)]

theorem roundMagnitude_tie : roundMagnitude (2 ^ 1127 + 2 ^ 1074) = 2 ^ 1127 := by
  have hlog : Nat.log2 (2 ^ 1127 + 2 ^ 1074) = 1127 := by
    rw [Nat.log2_eq_log_two, Nat.log_eq_iff (by norm_num)]
    norm_num
  unfold roundMagnitude
  rw [hlog]
  decide!

theorem mathRound_whole (j : Int) (h0 : 0 ≤ j) :
    mathRound (mathMaxZero (.finite (j * (oneUnits : Int)))) =
      .finite (j * (oneUnits : Int)) := by
  have hU := oneUnits_pos
  have hN : 0 ≤ j * (oneUnits : Int) := Int.mul_nonneg h0 (Int.le_of_lt hU)
  have h2U : (0 : Int) < 2 * (oneUnits : Int) := by omega
  have e : (2 * max 0 (j * (oneUnits : Int)) + (oneUnits : Int)) / (2 * (oneUnits : Int)) = j := by
    rw [max_eq_right hN]
    apply Int.le_antisymm
    · have : (2 * (j * (oneUnits : Int)) + (oneUnits : Int)) / (2 * (oneUnits : Int)) < j + 1 := by
        apply Int.ediv_lt_of_lt_mul h2U
        have e : (j + 1) * (2 * (oneUnits : Int)) =
            2 * (j * (oneUnits : Int)) + 2 * (oneUnits : Int) := by ring
        rw [e]
        omega
      omega
    · apply Int.le_ediv_of_mul_le h2U
      have e : j * (2 * (oneUnits : Int)) = 2 * (j * (oneUnits : Int)) := by ring
      rw [e]
      omega
  simp only [mathMaxZero, mathRound]
  rw [Int.fdiv_eq_ediv _ (Int.le_of_lt h2U), e]

/-- C6, as stated, fails: on the text `9007199254740994` (a whole number above
`2 ^ 53`) and the draw `0`, the sum `current + change` is the tie
`9007199254740993`, which rounds to the even neighbour, and the value assigned
is `9007199254740992`, at distance 2. -/
theorem updateStat_large_value :
    parseIntValue "9007199254740994" = some 9007199254740994 ∧
      updateStat "9007199254740994" 0 =
        .assign (.finite (9007199254740992 * (oneUnits : Int))) := by
  have hparse : parseIntValue "9007199254740994" = some 9007199254740994 := by rfl
  have hcur : parseInt "9007199254740994" = .finite (9007199254740994 * (oneUnits : Int)) := by
    have hdvd : (2 : Int) ^ 1075 ∣ 9007199254740994 * (oneUnits : Int) := by
      refine ⟨4503599627370497, ?_⟩
      unfold oneUnits
      rw [Nat.cast_pow, pow_succ]
      ring
    obtain ⟨y, hy, h1, h2⟩ := roundUnits_bounds (9007199254740994 * (oneUnits : Int)) _ _ 1075
      (Nat.le_refl _) (by decide!) hdvd hdvd (Int.le_refl _) (Int.le_refl _)
    rw [parseInt, hparse]
    show roundUnits (9007199254740994 * (oneUnits : Int)) = _
    rw [hy, Int.le_antisymm h2 h1]
  have hchange : (Num.finite ((0 : Nat) : Int)).timesTwo.minusOne =
      .finite (-(oneUnits : Int)) := by
    obtain ⟨a, ha, ha0, ha2⟩ := roundUnits_between (2 * ((0 : Nat) : Int)) 0 0 (by norm_num)
      (by norm_num) (by omega) (by omega)
    obtain ⟨c, hc, hc1, hc2⟩ := roundUnits_between (a + -(oneUnits : Int)) (-1) (-1)
      (by norm_num) (by norm_num) (by omega) (by omega)
    have hc' : c = -(oneUnits : Int) := by
      rw [neg_one_mul] at hc1 hc2
      exact Int.le_antisymm hc2 hc1
    rw [Num.timesTwo, ha, Num.minusOne, Num.add, hc, hc']
  have hsum : roundUnits (9007199254740994 * (oneUnits : Int) + -(oneUnits : Int)) =
      .finite (9007199254740992 * (oneUnits : Int)) := by
    have e1 : (9007199254740994 * (oneUnits : Int) + -(oneUnits : Int)) =
        ((2 ^ 1127 + 2 ^ 1074 : Nat) : Int) := by decide!
    have e2 : (9007199254740992 * (oneUnits : Int)) = ((2 ^ 1127 : Nat) : Int) := by decide!
    rw [e1, e2, roundUnits_natCast _ (by rw [roundMagnitude_tie]; decide!), roundMagnitude_tie]
  refine ⟨hparse, ?_⟩
  have hupd : updateStat "9007199254740994" 0 = .assign (mathRound (mathMaxZero
      ((parseInt "9007199254740994").add (Num.finite ((0 : Nat) : Int)).timesTwo.minusOne))) := by
    unfold updateStat
    rw [hcur]
    rfl
  rw [hupd, hcur, hchange, Num.add, hsum, mathRound_whole _ (by norm_num)]

/-- C6, amended: for every `.stat-number` element whose text parses to a whole
number `n` with `0 ≤ n < 2 ^ 53` and every draw `r` with `0 ≤ r < 1`, the
value assigned is a whole number `v` with `|v - n| ≤ 1` and `v ≥ 0`, computed
in Number arithmetic as `Math.round(Math.max(0, n + (r * 2 - 1)))`; an element
whose text parses to `NaN` is left unchanged. -/
theorem updateStat_small_change (text : String) (n : Int) (r : Nat)
    (hparse : parseIntValue text = some n) (h0 : 0 ≤ n) (hsafe : n < 2 ^ 53)
    (hr : r < oneUnits) :
    (∃ v : Int, updateStat text r = .assign (.finite (v * (oneUnits : Int))) ∧
      |v - n| ≤ 1 ∧ 0 ≤ v) ∧
    updateStat text r = .assign (mathRound (mathMaxZero
      ((Num.ofInt n).add (Num.finite r).timesTwo.minusOne))) ∧
    (∀ other : String, parseIntValue other = none → updateStat other r = .unchanged) := by
  have hcur : parseInt text = .finite (n * (oneUnits : Int)) := by
    rw [parseInt, hparse]
    exact ofInt_safe n h0 hsafe
  obtain ⟨c, hc, hc1, hc2⟩ := change_bounds r hr
  obtain ⟨s, hs, hs1, hs2⟩ := roundUnits_between (n * (oneUnits : Int) + c) (n - 1) (n + 1)
    (by omega) (by omega)
    (by
      have e : (n - 1) * (oneUnits : Int) = n * (oneUnits : Int) - (oneUnits : Int) := by ring
      rw [e]
      omega)
    (by
      have e : (n + 1) * (oneUnits : Int) = n * (oneUnits : Int) + (oneUnits : Int) := by ring
      rw [e]
      omega)
  obtain ⟨v, hv, hv1, hv2⟩ := mathRound_bounds s n h0 hs1 hs2
  have hupd : updateStat text r = .assign (mathRound (mathMaxZero
      ((parseInt text).add (Num.finite r).timesTwo.minusOne))) := by
    simp [updateStat, hcur, isNaN]
  refine ⟨⟨v, ?_, hv1, hv2⟩, ?_, ?_⟩
  · rw [hupd, hcur, hc, Num.add, hs, hv]
  · rw [hupd, hcur, ofInt_safe n h0 hsafe]
  · intro other hother
    simp [updateStat, parseInt, hother, isNaN]

/-- The amended C6 on the text `42` and the draw `0`. -/
theorem updateStat_small_change_witness :
    parseIntValue "42" = some 42 ∧
      ∃ v : Int, updateStat "42" 0 = .assign (.finite (v * (oneUnits : Int))) ∧
        |v - 42| ≤ 1 ∧ 0 ≤ v :=
  ⟨rfl, (updateStat_small_change "42" 42 0 rfl (by decide) (by decide)
    (by unfold oneUnits; positivity)).1⟩

end AttendanceSystem
